import Mathlib

/-!
# Weblisk Connection & Session Messaging Subsystem — verification development

Shallow embedding of the core of the `weblisk` framework:
* `src/lib/security.ts` — `WebliskSecurity.sanitizeInput`,
  `generateSecureSessionId`, `isValidSessionId`;
* `src/lib/monitor.ts` — `WebSocketManager`: connection registry
  (`addConnection` / `removeConnection`), message dispatch (`handleMessage`,
  the `socket.onopen` / `socket.onmessage` handlers installed by
  `setupConnectionHandlers`), and the broadcast/targeting API (`broadcast`,
  `broadcastToSession`, `sendToConnection`, `shouldSendToConnection`);
* `src/src/cookies.ts` — `CookieManager` session-cookie handling
  (`getSessionId`, `handleSession`, `createSessionCookie`).

JavaScript `Map` and `Set` are embedded as association lists / element lists
with the exact first-match/insertion-order semantics of the originals.
Handlers (component `server` functions, the injected route message handler)
are embedded as Lean functions returning `Except String JValue`, where
`Except.error` stands for a synchronous throw or an asynchronous rejection
(the dispatcher `await`s every handler, so both reach the same `catch`).
Timestamps (`new Date().toISOString()`) are threaded as an opaque string
parameter `now`.
-/

/-- JSON-like runtime values: the payloads carried by protocol messages.
Mirrors what `JSON.parse` can produce and what `sanitizeInput` recurses on
(strings, arrays, objects, and scalars that are returned untouched). -/
inductive JValue where
  | str (s : String)
  | num (n : Int)
  | bool (b : Bool)
  | null
  | arr (elems : List JValue)
  | obj (fields : List (String × JValue))
deriving Repr

/-! ## Character helpers for the sanitizer embedding -/

/-- The backtick character, written via its code point. -/
def backtickChar : Char := Char.ofNat 96

/-- The double-quote character. -/
def dquoteChar : Char := Char.ofNat 34

/-- The single-quote character. -/
def squoteChar : Char := Char.ofNat 39

/-- The backslash character. -/
def backslashChar : Char := Char.ofNat 92

/-- Replace every occurrence of the character `c` by the string `r`
(character-list form). Embeds a JavaScript `String.replace(/c/g, r)` with a
single-character pattern. -/
def replaceCharList (c : Char) (r : List Char) : List Char → List Char
  | [] => []
  | x :: xs =>
    if x = c then r ++ replaceCharList c r xs else x :: replaceCharList c r xs

/-- String-level wrapper for `replaceCharList`. -/
def strReplaceChar (s : String) (c : Char) (r : String) : String :=
  ⟨replaceCharList c r.data s.data⟩

/-- Try to strip the (lowercase) pattern `ps` from the front of `cs`,
comparing case-insensitively; return the rest on success. -/
def stripCI : List Char → List Char → Option (List Char)
  | [], rest => some rest
  | _ :: _, [] => none
  | p :: ps, c :: cs => if c.toLower = p then stripCI ps cs else none

/-- Replace every (left-to-right, non-overlapping) case-insensitive
occurrence of the pattern `p0 :: prest` by `rep`. Embeds a JavaScript
`String.replace(/pat/gi, rep)` with a literal pattern. The `fuel` argument
only bounds the recursion; every step consumes at least one character, so
`fuel = l.length` (as used by `replaceTokenCI`) never runs out. -/
def replaceTokenCIAux (p0 : Char) (prest rep : List Char) : Nat → List Char → List Char
  | 0, l => l
  | _ + 1, [] => []
  | fuel + 1, c :: cs =>
    match stripCI (p0 :: prest) (c :: cs) with
    | some rest => rep ++ replaceTokenCIAux p0 prest rep fuel rest
    | none => c :: replaceTokenCIAux p0 prest rep fuel cs

/-- `String.replace(/p0 prest/gi, rep)` on a character list. -/
def replaceTokenCI (p0 : Char) (prest rep : List Char) (l : List Char) : List Char :=
  replaceTokenCIAux p0 prest rep l.length l

/-- Word characters of the JavaScript regex class `\w`. -/
def isWordChar (c : Char) : Bool :=
  (decide (Char.ofNat 97 ≤ c) && decide (c ≤ Char.ofNat 122)) ||
  (decide (Char.ofNat 65 ≤ c) && decide (c ≤ Char.ofNat 90)) ||
  (decide (Char.ofNat 48 ≤ c) && decide (c ≤ Char.ofNat 57)) ||
  decide (c = Char.ofNat 95)

/-- Whitespace characters of the JavaScript regex class `\s`
(ASCII portion: space, tab, LF, VT, FF, CR). -/
def isSpaceChar (c : Char) : Bool :=
  decide (c = Char.ofNat 32) || decide (c = Char.ofNat 9) ||
  decide (c = Char.ofNat 10) || decide (c = Char.ofNat 11) ||
  decide (c = Char.ofNat 12) || decide (c = Char.ofNat 13)

/-- Count and drop the longest run of characters satisfying `p`. -/
def takeRun (p : Char → Bool) : List Char → Nat × List Char
  | [] => (0, [])
  | c :: cs =>
    if p c then
      let r := takeRun p cs
      (r.1 + 1, r.2)
    else (0, c :: cs)

/-- Match the JavaScript regex `/on\w+\s*=/i` at the head of the list;
on a match return the remainder after the `=`. A greedy match without
backtracking is equivalent here: after a maximal `\w` run the next character
is not a word character, so no shorter run can be followed by `\s*=`. -/
def matchOnHandler : List Char → Option (List Char)
  | c1 :: c2 :: cs =>
    if c1.toLower = Char.ofNat 111 && c2.toLower = Char.ofNat 110 then
      let w := takeRun isWordChar cs
      if w.1 = 0 then none
      else
        let sp := takeRun isSpaceChar w.2
        match sp.2 with
        | c3 :: rest => if c3 = Char.ofNat 61 then some rest else none
        | [] => none
    else none
  | _ => none

/-- Replace every occurrence of `/on\w+\s*=/gi` by `blocked=`.
Embeds the event-handler-blocking pass of `sanitizeInput`. As with
`replaceTokenCIAux`, `fuel = l.length` suffices because every match
consumes at least one character. -/
def replaceOnHandlersAux : Nat → List Char → List Char
  | 0, l => l
  | _ + 1, [] => []
  | fuel + 1, c :: cs =>
    match matchOnHandler (c :: cs) with
    | some rest => "blocked=".data ++ replaceOnHandlersAux fuel rest
    | none => c :: replaceOnHandlersAux fuel cs

/-- `String.replace(/on\w+\s*=/gi, "blocked=")` on a character list. -/
def replaceOnHandlers (l : List Char) : List Char :=
  replaceOnHandlersAux l.length l

/-- Embeds the string branch of `WebliskSecurity.sanitizeInput`
(`src/lib/security.ts:142`): the chained single-character HTML-entity
replacements, then the case-insensitive `javascript:` / `vbscript:` /
`data:` scheme blocking, then `/on\w+\s*=/gi` blocking, then the
10000-character truncation guard. String length is modelled as the number
of characters. -/
def sanitizeString (input : String) : String :=
  let s1 := strReplaceChar input '&' "&amp;"
  let s2 := strReplaceChar s1 '<' "&lt;"
  let s3 := strReplaceChar s2 '>' "&gt;"
  let s4 := strReplaceChar s3 dquoteChar "&quot;"
  let s5 := strReplaceChar s4 squoteChar "&#x27;"
  let s6 := strReplaceChar s5 '/' "&#x2F;"
  let s7 := strReplaceChar s6 backslashChar "&#x5C;"
  let s8 := strReplaceChar s7 backtickChar "&#x60;"
  let s9 : List Char := replaceTokenCI 'j' "avascript:".data "blocked:".data s8.data
  let s10 : List Char := replaceTokenCI 'v' "bscript:".data "blocked:".data s9
  let s11 : List Char := replaceTokenCI 'd' "ata:".data "blocked:".data s10
  let s12 : List Char := replaceOnHandlers s11
  if s12.length > 10000 then ⟨s12.take 10000 ++ "... [truncated]".data⟩
  else ⟨s12⟩

/-- Embeds `WebliskSecurity.sanitizeInput` (`src/lib/security.ts:142`):
strings are HTML-encoded and scheme/handler-blocked, arrays and objects are
sanitized recursively, all other values are returned unchanged. -/
def sanitizeInput : JValue → JValue
  | .str s => .str (sanitizeString s)
  | .num n => .num n
  | .bool b => .bool b
  | .null => .null
  | .arr elems => .arr (sanitizeArr elems)
  | .obj fields => .obj (sanitizeObj fields)
where
  /-- `input.map((item) => this.sanitizeInput(item))` -/
  sanitizeArr : List JValue → List JValue
    | [] => []
    | v :: vs => sanitizeInput v :: sanitizeArr vs
  /-- `for (const [key, value] of Object.entries(input)) sanitized[key] = ...` -/
  sanitizeObj : List (String × JValue) → List (String × JValue)
    | [] => []
    | (k, v) :: fs => (k, sanitizeInput v) :: sanitizeObj fs

/-! ## JavaScript `Map` / `Set` embeddings

`Map<string, A>` is an association list with unique keys, first-match
lookup, in-place overwrite on `set` of an existing key, and insertion-order
iteration. `Set<string>` is a duplicate-free list with append-on-add. -/

/-- `Map.get`: first-match lookup. -/
def mapGet (l : List (String × α)) (k : String) : Option α :=
  match l with
  | [] => none
  | (k1, v) :: rest => if k1 = k then some v else mapGet rest k

/-- `Map.set`: overwrite the existing entry in place, else append. -/
def mapSet (l : List (String × α)) (k : String) (v : α) : List (String × α) :=
  match l with
  | [] => [(k, v)]
  | (k1, v1) :: rest =>
    if k1 = k then (k, v) :: rest else (k1, v1) :: mapSet rest k v

/-- `Map.delete`: remove the entry with key `k`. -/
def mapDelete (l : List (String × α)) (k : String) : List (String × α) :=
  match l with
  | [] => []
  | (k1, v1) :: rest =>
    if k1 = k then rest else (k1, v1) :: mapDelete rest k

/-- `Set.add`: append if not already present. -/
def setAdd (s : List String) (x : String) : List String :=
  if x ∈ s then s else s ++ [x]

/-- `Set.delete`: remove the element. -/
def setDelete (s : List String) (x : String) : List String :=
  s.filter (fun y => y ≠ x)

/-- Keys of an association list are pairwise distinct (maintained by all
`Map` operations starting from the empty map). -/
def NodupKeys (l : List (String × α)) : Prop := (l.map Prod.fst).Nodup

/-! ## The connection registry (`WebSocketManager`, `src/lib/monitor.ts`) -/

/-- One live connection as constructed in `handleUpgrade`
(`src/lib/monitor.ts:649`): `id` is the fresh `connectionId`, `sessionId`
the resolved session token. `isOpen` embeds
`socket.readyState === WebSocket.OPEN`, the only transport state the send
closure consults. -/
structure Conn where
  id : String
  sessionId : String
  isOpen : Bool
deriving DecidableEq, Repr

/-- The `WebSocketStats` counters of `src/lib/monitor.ts:613`. -/
structure WebSocketStats where
  totalConnections : Nat
  activeConnections : Nat
  messagesReceived : Nat
  messagesSent : Nat
  errors : Nat
deriving DecidableEq, Repr

/-- The mutable state of `WebSocketManager` (`src/lib/monitor.ts:628`):
the primary connection map, the `sessionId -> Set<connectionId>` index,
and the statistics counters. The component map and the injected route
message handler contain functions and are passed to the dispatcher as
separate arguments. -/
structure ManagerState where
  connections : List (String × Conn)
  sessionConnections : List (String × List String)
  stats : WebSocketStats
deriving DecidableEq, Repr

/-- The manager's initial state: both maps empty, all counters zero. -/
def initialManagerState : ManagerState :=
  { connections := [],
    sessionConnections := [],
    stats := { totalConnections := 0, activeConnections := 0,
               messagesReceived := 0, messagesSent := 0, errors := 0 } }

/-- Embeds `WebSocketManager.addConnection` (`src/lib/monitor.ts:736`):
`connections.set(id, connection)`, create the session entry if absent,
add the id to the session's set, bump `totalConnections`, and recompute
`activeConnections` from the map size. -/
def addConnection (st : ManagerState) (connection : Conn) : ManagerState :=
  let connections := mapSet st.connections connection.id connection
  let sess0 :=
    if (mapGet st.sessionConnections connection.sessionId).isSome then
      st.sessionConnections
    else
      mapSet st.sessionConnections connection.sessionId []
  let sess :=
    match mapGet sess0 connection.sessionId with
    | some s => mapSet sess0 connection.sessionId (setAdd s connection.id)
    | none => sess0
  { connections := connections,
    sessionConnections := sess,
    stats := { st.stats with
               totalConnections := st.stats.totalConnections + 1,
               activeConnections := connections.length } }

/-- Embeds `WebSocketManager.removeConnection` (`src/lib/monitor.ts:752`):
no-op for an unknown id; otherwise delete from the primary map, delete the
id from its session's set, garbage-collect the session entry when the set
becomes empty, and recompute `activeConnections`. -/
def removeConnection (st : ManagerState) (connectionId : String) : ManagerState :=
  match mapGet st.connections connectionId with
  | none => st
  | some connection =>
    let connections := mapDelete st.connections connectionId
    let sess :=
      match mapGet st.sessionConnections connection.sessionId with
      | none => st.sessionConnections
      | some s =>
        let s2 := setDelete s connectionId
        if s2.length = 0 then
          mapDelete st.sessionConnections connection.sessionId
        else
          mapSet st.sessionConnections connection.sessionId s2
    { connections := connections,
      sessionConnections := sess,
      stats := { st.stats with activeConnections := connections.length } }

/-- A register/unregister call, for reasoning about call sequences. -/
inductive RegEvent where
  | add (c : Conn)
  | remove (connectionId : String)
deriving DecidableEq, Repr

/-- Apply one register/unregister call. -/
def applyEvent (st : ManagerState) : RegEvent → ManagerState
  | .add c => addConnection st c
  | .remove connectionId => removeConnection st connectionId

/-- Apply a sequence of register/unregister calls in order. -/
def applyEvents (st : ManagerState) : List RegEvent → ManagerState
  | [] => st
  | e :: es => applyEvents (applyEvent st e) es

/-- Executable form of the registry invariant of the specification: the set
of connectionIds that are keys of the primary map equals the union of the
sets stored in the session index (each key appears in some session set, and
every id in every session set is a key of the primary map). -/
def registryInvariantB (st : ManagerState) : Bool :=
  st.connections.all
    (fun p => st.sessionConnections.any (fun q => q.2.contains p.1)) &&
  st.sessionConnections.all
    (fun q => q.2.all (fun id => (mapGet st.connections id).isSome))

/-- Every `add` event in the trace registers its connection under the
session assigned to that connectionId by `σ`; in the running system this
holds with `σ` mapping each fresh UUID connectionId to the sessionId of the
upgrade that created it, because connectionIds are never reused across
sessions. -/
def addsConsistentB (σ : String → String) (evs : List RegEvent) : Bool :=
  evs.all (fun e =>
    match e with
    | .add c => c.sessionId == σ c.id
    | .remove _ => true)

/-- The alignment invariant that actually holds along every execution of
the registry in which each connectionId is only ever registered under one
session (`σ` names that session): the two maps have duplicate-free keys,
every stored connection carries its own key and its `σ`-session, it appears
in exactly its session's set, and every id in a session set is a registered
connection of that session. -/
structure Aligned (σ : String → String) (st : ManagerState) : Prop where
  nodupConn : NodupKeys st.connections
  nodupSess : NodupKeys st.sessionConnections
  nodupSets : ∀ sid s, mapGet st.sessionConnections sid = some s → s.Nodup
  connKey : ∀ id c, mapGet st.connections id = some c → c.id = id ∧ c.sessionId = σ id
  connInSet : ∀ id c, mapGet st.connections id = some c →
      ∃ s, mapGet st.sessionConnections (σ id) = some s ∧ id ∈ s
  setInConn : ∀ sid s, mapGet st.sessionConnections sid = some s →
      ∀ id, id ∈ s → ∃ c, mapGet st.connections id = some c ∧ c.sessionId = sid

/-! ## Outbound messages and the send closure -/

/-- The outbound envelopes the manager constructs, plus arbitrary
application broadcast values. The constructors mirror the object literals
in `src/lib/monitor.ts`: `connectionEstablished` (line 684), `eventResult`
(lines 819/828/847), the parse-failure `error` envelope (line 705), and
`app` for the unconstrained values passed to the broadcast API. -/
inductive OutMessage where
  | connectionEstablished (sessionId connectionId timestamp : String)
  | eventResult (event : String) (success : Bool) (result : Option JValue)
      (error : Option String) (timestamp : String)
  | errorEnvelope (error : String) (timestamp : String)
  | app (v : JValue)
deriving Repr

/-- The value of the wire-level `type` field of an envelope. -/
def OutMessage.typeField : OutMessage → String
  | .connectionEstablished _ _ _ => "connection-established"
  | .eventResult _ _ _ _ _ => "event-result"
  | .errorEnvelope _ _ => "error"
  | .app _ => ""

/-- One invocation of a connection's `send` closure:
which connection it was called on, the envelope, and whether the transport
actually transmitted it (`socket.readyState === WebSocket.OPEN`). -/
structure SendRec where
  connId : String
  message : OutMessage
  delivered : Bool
deriving Repr

/-- Embeds the `send` closure built in `handleUpgrade`
(`src/lib/monitor.ts:653`): when the socket is open the frame is
serialized and sent and `messagesSent` is bumped; otherwise the call is a
silent no-op (the serialization of our `OutMessage` values never throws,
so the closure's internal catch is unreachable in the model). -/
def doSend (st : ManagerState) (c : Conn) (m : OutMessage) : ManagerState × SendRec :=
  if c.isOpen then
    ({ st with stats := { st.stats with
         messagesSent := st.stats.messagesSent + 1 } },
     ⟨c.id, m, true⟩)
  else
    (st, ⟨c.id, m, false⟩)

/-! ## The dispatcher (`handleMessage`, `src/lib/monitor.ts:775`) -/

/-- The parsed inbound `server-event` message (`ServerEventMessage`,
`src/lib/static.ts:287`). A missing/empty `component` field is modelled as
the empty string, which is exactly the set of values that fail the
JavaScript truthiness test `message.component && ...`. -/
structure ServerEventMessage where
  component : String
  event : String
  payload : JValue

/-- A registered component (`ComponentDefinition`, `src/lib/static.ts:370`):
an optional single server-side handler. The handler receives the
`ComponentContext` whose only message-dependent field is `data`
(set to the message payload in `handleMessage`), so it is embedded as a
function of that payload; `Except.error` models a throw/rejection. -/
structure ComponentDefinition where
  server : Option (JValue → Except String JValue)

/-- The type of the injected route message handler
(`WebSocketManager.routeMessageHandler`, `src/lib/monitor.ts:860`). -/
def RouteMessageHandler : Type :=
  ServerEventMessage → Conn → Except String JValue

/-- The try-block of `handleMessage` up to the point where a result or an
exception is known: `Except.error e` is a handler throw/rejection caught by
the catch-block, `.ok (true, r)` a handler result, `.ok (false, _)` the
no-handler-found case. Mirrors the `handlerFound`/`result` control flow of
`src/lib/monitor.ts:786-815`: the component branch runs when `component` is
truthy and is neither `"route"` nor `"app"` and names a registered
component with a `server` handler — and that handler receives the RAW
`message.payload`; otherwise the route handler (if injected) receives the
sanitized message. -/
def dispatchOutcome (components : List (String × ComponentDefinition))
    (routeHandler : Option RouteMessageHandler)
    (message : ServerEventMessage) (connection : Conn) :
    Except String (Bool × Option JValue) :=
  let sanitizedMessage : ServerEventMessage :=
    { message with payload := sanitizeInput message.payload }
  let componentStep : Except String (Bool × Option JValue) :=
    if message.component ≠ "" ∧ message.component ≠ "route" ∧
        message.component ≠ "app" then
      match mapGet components message.component with
      | some component =>
        match component.server with
        | some h => (h message.payload).map (fun r => (true, some r))
        | none => .ok (false, none)
      | none => .ok (false, none)
    else .ok (false, none)
  match componentStep with
  | .ok (false, _) =>
    match routeHandler with
    | some rh => (rh sanitizedMessage connection).map (fun r => (true, some r))
    | none => .ok (false, none)
  | other => other

/-- Embeds `WebSocketManager.handleMessage` (`src/lib/monitor.ts:775`):
run the dispatch, then send exactly one `event-result` envelope back on the
originating connection — success with the handler result, or failure with
either the no-handler message or the caught exception's message. Returns
the updated state and the list of send invocations made. -/
def handleMessage (st : ManagerState)
    (components : List (String × ComponentDefinition))
    (routeHandler : Option RouteMessageHandler)
    (message : ServerEventMessage) (connection : Conn) (now : String) :
    ManagerState × List SendRec :=
  match dispatchOutcome components routeHandler message connection with
  | .ok (true, r) =>
    let sr := doSend st connection
      (.eventResult message.event true r none now)
    (sr.1, [sr.2])
  | .ok (false, _) =>
    let sr := doSend st connection
      (.eventResult message.event false none
        (some ("No handler found for component: " ++ message.component)) now)
    (sr.1, [sr.2])
  | .error e =>
    let sr := doSend st connection
      (.eventResult message.event false none (some e) now)
    (sr.1, [sr.2])

/-! ## The transport event handlers (`setupConnectionHandlers`,
`src/lib/monitor.ts:676`) -/

/-- Embeds `socket.onopen` (`src/lib/monitor.ts:679`): register the
connection, then send the `connection-established` envelope carrying the
connection's `sessionId` and `connectionId` down that same connection. -/
def socketOnOpen (st : ManagerState) (connection : Conn) (now : String) :
    ManagerState × List SendRec :=
  let st1 := addConnection st connection
  let sr := doSend st1 connection
    (.connectionEstablished connection.sessionId connection.id now)
  (sr.1, [sr.2])

/-- Embeds `socket.onmessage` (`src/lib/monitor.ts:692`). `frame` is the
result of `JSON.parse(event.data)`: `none` models a parse failure (the
only throwing statement in the try-block — `handleMessage` is total). On
failure the catch-block bumps the error counter and sends the
`{type:"error", error:"Invalid message format"}` envelope; the registry
maps are untouched either way. -/
def socketOnMessage (st : ManagerState)
    (components : List (String × ComponentDefinition))
    (routeHandler : Option RouteMessageHandler)
    (connection : Conn) (frame : Option ServerEventMessage) (now : String) :
    ManagerState × List SendRec :=
  let st1 := { st with stats := { st.stats with
    messagesReceived := st.stats.messagesReceived + 1 } }
  match frame with
  | some message => handleMessage st1 components routeHandler message connection now
  | none =>
    let st2 := { st1 with stats := { st1.stats with
      errors := st1.stats.errors + 1 } }
    let sr := doSend st2 connection (.errorEnvelope "Invalid message format" now)
    (sr.1, [sr.2])

/-- Embeds `socket.onclose` (`src/lib/monitor.ts:713`): unregister. -/
def socketOnClose (st : ManagerState) (connectionId : String) : ManagerState :=
  removeConnection st connectionId

/-! ## The broadcast/targeting API (`src/lib/monitor.ts:896-981`) -/

/-- `BroadcastOptions` (`src/lib/monitor.ts:621`): all four filters are
optional (JavaScript `undefined` is `none`). -/
structure BroadcastOptions where
  includeSessionId : Option String := none
  excludeSessionId : Option String := none
  includeConnectionIds : Option (List String) := none
  excludeConnectionIds : Option (List String) := none

/-- JavaScript truthiness of an optional string
(`undefined` and `""` are falsy). -/
def strTruthy : Option String → Bool
  | none => false
  | some s => s ≠ ""

/-- Embeds `WebSocketManager.shouldSendToConnection`
(`src/lib/monitor.ts:948`), including the truthiness guards: a present but
empty `includeSessionId`/`excludeSessionId` is skipped (falsy), while a
present but empty connection-id array is truthy and is consulted. -/
def shouldSendToConnection (connection : Conn) (options : BroadcastOptions) : Bool :=
  if strTruthy options.includeSessionId &&
      connection.sessionId != options.includeSessionId.getD "" then false
  else if strTruthy options.excludeSessionId &&
      connection.sessionId == options.excludeSessionId.getD "" then false
  else if options.includeConnectionIds.isSome &&
      !((options.includeConnectionIds.getD []).contains connection.id) then false
  else if options.excludeConnectionIds.isSome &&
      (options.excludeConnectionIds.getD []).contains connection.id then false
  else true

/-- The iteration of `broadcast` over `this.connections.values()`:
send to every connection passing the filter, counting each send. -/
def broadcastGo (st : ManagerState) (message : OutMessage)
    (options : BroadcastOptions) :
    List (String × Conn) → ManagerState × Nat × List SendRec
  | [] => (st, 0, [])
  | (_, c) :: rest =>
    if shouldSendToConnection c options then
      let sr := doSend st c message
      let r := broadcastGo sr.1 message options rest
      (r.1, r.2.1 + 1, sr.2 :: r.2.2)
    else broadcastGo st message options rest

/-- Embeds `WebSocketManager.broadcast` (`src/lib/monitor.ts:896`). -/
def broadcast (st : ManagerState) (message : OutMessage)
    (options : BroadcastOptions) : ManagerState × Nat × List SendRec :=
  broadcastGo st message options st.connections

/-- The iteration of `broadcastToSession` over the session's connectionId
set: look each id up in the primary map, send and count when found. -/
def broadcastToSessionGo (st : ManagerState) (message : OutMessage) :
    List String → ManagerState × Nat × List SendRec
  | [] => (st, 0, [])
  | id :: ids =>
    match mapGet st.connections id with
    | some c =>
      let sr := doSend st c message
      let r := broadcastToSessionGo sr.1 message ids
      (r.1, r.2.1 + 1, sr.2 :: r.2.2)
    | none => broadcastToSessionGo st message ids

/-- Embeds `WebSocketManager.broadcastToSession`
(`src/lib/monitor.ts:917`): 0 sends when the session has no index entry,
otherwise one send per id of the session's set that is present in the
primary map — `sentCount` is incremented for every such connection whether
or not its transport is open. -/
def broadcastToSession (st : ManagerState) (sessionId : String)
    (message : OutMessage) : ManagerState × Nat × List SendRec :=
  match mapGet st.sessionConnections sessionId with
  | none => (st, 0, [])
  | some connectionIds => broadcastToSessionGo st message connectionIds

/-- Embeds `WebSocketManager.sendToConnection` (`src/lib/monitor.ts:937`):
`false` for an unknown connectionId, otherwise call `send` (a no-op on a
closed transport) and return `true`. -/
def sendToConnection (st : ManagerState) (connectionId : String)
    (message : OutMessage) : ManagerState × Bool × List SendRec :=
  match mapGet st.connections connectionId with
  | none => (st, false, [])
  | some c =>
    let sr := doSend st c message
    (sr.1, true, [sr.2])

/-- The handler the component branch of `handleMessage` resolves: the
component field is truthy and neither `"route"` nor `"app"`, names a
registered component, and that component has a `server` handler. -/
def componentResolves (components : List (String × ComponentDefinition))
    (message : ServerEventMessage) :
    Option (JValue → Except String JValue) :=
  if message.component ≠ "" ∧ message.component ≠ "route" ∧
      message.component ≠ "app" then
    match mapGet components message.component with
    | some component => component.server
    | none => none
  else none

/-! ## Session identity (`src/lib/security.ts`, `src/src/cookies.ts`) -/

/-- Hexadecimal digit, case-insensitive (the regex class `[0-9a-f]` under
the `i` flag). -/
def isHexDigitCI (c : Char) : Bool :=
  (decide ('0' ≤ c) && decide (c ≤ '9')) ||
  (decide ('a' ≤ c) && decide (c ≤ 'f')) ||
  (decide ('A' ≤ c) && decide (c ≤ 'F'))

/-- Lowercase hexadecimal digit. -/
def isLowerHexDigit (c : Char) : Bool :=
  (decide ('0' ≤ c) && decide (c ≤ '9')) ||
  (decide ('a' ≤ c) && decide (c ≤ 'f'))

/-- Consume exactly `n` characters satisfying `p` (a regex `p{n}`). -/
def runOf (p : Char → Bool) : Nat → List Char → Option (List Char)
  | 0, cs => some cs
  | _ + 1, [] => none
  | n + 1, c :: cs => if p c then runOf p n cs else none

/-- One token of an anchored character-class regex: a fixed-length class
run or a single class character. -/
inductive UuidTok where
  | run (p : Char → Bool) (n : Nat)
  | one (p : Char → Bool)

/-- Match a token list against the whole character list (anchored at both
ends, as the regex's `^...$`). -/
def matchToks : List UuidTok → List Char → Bool
  | [], [] => true
  | [], _ :: _ => false
  | .run p n :: ts, cs =>
    match runOf p n cs with
    | some rest => matchToks ts rest
    | none => false
  | .one p :: ts, cs =>
    match cs with
    | c :: rest => if p c then matchToks ts rest else false
    | [] => false

/-- Embeds `WebliskSecurity.isValidSessionId` (`src/lib/security.ts:366`):
the anchored case-insensitive regex
`^[0-9a-f]{8}-[0-9a-f]{4}-4[0-9a-f]{3}-[89ab][0-9a-f]{3}-[0-9a-f]{12}$`,
token by token. -/
def isValidSessionId (s : String) : Bool :=
  matchToks
    [.run isHexDigitCI 8, .one (fun c => decide (c = '-')),
     .run isHexDigitCI 4, .one (fun c => decide (c = '-')),
     .one (fun c => decide (c = '4')), .run isHexDigitCI 3,
     .one (fun c => decide (c = '-')),
     .one (fun c => decide (c = '8') || decide (c = '9') ||
       decide (c = 'a') || decide (c = 'b') ||
       decide (c = 'A') || decide (c = 'B')),
     .run isHexDigitCI 3, .one (fun c => decide (c = '-')),
     .run isHexDigitCI 12] s.data

/-- Model of the output format of the platform's `crypto.randomUUID()`
called by `WebliskSecurity.generateSecureSessionId`
(`src/lib/security.ts:359`): a lowercase RFC 4122 version-4 UUID —
`xxxxxxxx-xxxx-4xxx-yxxx-xxxxxxxxxxxx` with lowercase hex digits and
`y ∈ {8,9,a,b}`. -/
def isRandomUUIDOutput (s : String) : Bool :=
  matchToks
    [.run isLowerHexDigit 8, .one (fun c => decide (c = '-')),
     .run isLowerHexDigit 4, .one (fun c => decide (c = '-')),
     .one (fun c => decide (c = '4')), .run isLowerHexDigit 3,
     .one (fun c => decide (c = '-')),
     .one (fun c => decide (c = '8') || decide (c = '9') ||
       decide (c = 'a') || decide (c = 'b')),
     .run isLowerHexDigit 3, .one (fun c => decide (c = '-')),
     .run isLowerHexDigit 12] s.data

/-- Pointwise weakening of one token. -/
def TokLE : UuidTok → UuidTok → Prop
  | .run p n, .run q m => n = m ∧ ∀ c, p c = true → q c = true
  | .one p, .one q => ∀ c, p c = true → q c = true
  | _, _ => False

/-- `SessionCookieConfig` (`src/src/cookies.ts:19`). -/
structure SessionCookieConfig where
  cookieName : String
  cookieMaxAge : Nat
  cookieSecure : Bool
  cookieSameSite : String

/-- `CookieOptions` (`src/src/cookies.ts:9`); `expires` carries the
already-rendered `toUTCString()` text. -/
structure CookieOptions where
  maxAge : Option Nat := none
  expires : Option String := none
  domain : Option String := none
  path : Option String := none
  secure : Bool := false
  httpOnly : Bool := false
  sameSite : Option String := none

/-- ASCII model of the platform's `encodeURIComponent` used by
`formatCookie`: characters it leaves intact pass through, other ASCII
characters are percent-encoded from their code point. Cookie session
values are UUIDs (lowercase hex and hyphens), on which this model is
exact. -/
def isUnreservedChar (c : Char) : Bool :=
  (decide ('a' ≤ c) && decide (c ≤ 'z')) ||
  (decide ('A' ≤ c) && decide (c ≤ 'Z')) ||
  (decide ('0' ≤ c) && decide (c ≤ '9')) ||
  decide (c = '-') || decide (c = '_') || decide (c = '.') ||
  decide (c = '!') || decide (c = '~') || decide (c = '*') ||
  decide (c = '(') || decide (c = ')') || decide (c = squoteChar)

/-- The uppercase hexadecimal digit of `n < 16`. -/
def hexDigitChar (n : Nat) : Char :=
  if n < 10 then Char.ofNat (48 + n) else Char.ofNat (55 + n)

/-- See `isUnreservedChar`. -/
def encodeURIComponentAscii (s : String) : String :=
  ⟨s.data.foldr (fun c acc =>
     if isUnreservedChar c then c :: acc
     else '%' :: hexDigitChar (c.toNat / 16) :: hexDigitChar (c.toNat % 16)
       :: acc) []⟩

/-- Embeds `CookieManager.formatCookie` (`src/src/cookies.ts:110`): the
`name=value` pair followed by the attribute parts present in the options,
joined with `"; "`. String-valued attributes are appended when truthy
(non-empty); `maxAge` whenever it is not `undefined`. -/
def formatCookie (name value : String) (options : CookieOptions) : String :=
  let parts : List String := [name ++ "=" ++ encodeURIComponentAscii value]
  let parts := match options.maxAge with
    | some n => parts ++ ["Max-Age=" ++ toString n]
    | none => parts
  let parts := match options.expires with
    | some e => if e ≠ "" then parts ++ ["Expires=" ++ e] else parts
    | none => parts
  let parts := match options.domain with
    | some d => if d ≠ "" then parts ++ ["Domain=" ++ d] else parts
    | none => parts
  let parts := match options.path with
    | some p => if p ≠ "" then parts ++ ["Path=" ++ p] else parts
    | none => parts
  let parts := if options.secure then parts ++ ["Secure"] else parts
  let parts := if options.httpOnly then parts ++ ["HttpOnly"] else parts
  let parts := match options.sameSite with
    | some ss => if ss ≠ "" then parts ++ ["SameSite=" ++ ss] else parts
    | none => parts
  String.intercalate "; " parts

/-- Embeds `CookieManager.createSessionCookie` (`src/src/cookies.ts:80`)
with no extra options: `Max-Age`, `Secure`, `HttpOnly`, `SameSite` and
`Path=/` from the configuration. -/
def createSessionCookie (config : SessionCookieConfig)
    (sessionId : String) : String :=
  formatCookie config.cookieName sessionId
    { maxAge := some config.cookieMaxAge,
      secure := config.cookieSecure,
      httpOnly := true,
      sameSite := some config.cookieSameSite,
      path := some "/" }

/-- Embeds `CookieManager.getSessionId` (`src/src/cookies.ts:59`) over the
parsed cookie record: the named cookie's value when it is truthy and passes
`isValidSessionId`; `null` otherwise. -/
def getSessionId (config : SessionCookieConfig)
    (cookies : List (String × String)) : Option String :=
  match mapGet cookies config.cookieName with
  | some sessionId =>
    if sessionId ≠ "" ∧ isValidSessionId sessionId = true then some sessionId
    else none
  | none => none

/-- Embeds `CookieManager.handleSession` (`src/src/cookies.ts:151`) over
the parsed cookie record; `fresh` is the token `generateSessionId()`
(i.e. `crypto.randomUUID()`) mints on this request. Returns
`(sessionId, isNewSession, cookieHeader)`. -/
def handleSession (config : SessionCookieConfig)
    (cookies : List (String × String)) (fresh : String) :
    String × Bool × Option String :=
  match getSessionId config cookies with
  | some sessionId => (sessionId, false, none)
  | none => (fresh, true, some (createSessionCookie config fresh))

/-! ## Lemmas and claim theorems -/

/-! ### Lemmas about the `Map` / `Set` embeddings -/

theorem mapGet_mapSet_self (l : List (String × α)) (k : String) (v : α) :
    mapGet (mapSet l k v) k = some v := by
  induction l with
  | nil => simp [mapGet, mapSet]
  | cons p rest ih =>
    obtain ⟨k1, v1⟩ := p
    by_cases h : k1 = k <;> simp [mapGet, mapSet, h, ih]

theorem mapGet_mapSet_ne (l : List (String × α)) (k k2 : String) (v : α)
    (h : k2 ≠ k) : mapGet (mapSet l k v) k2 = mapGet l k2 := by
  have h2 : ¬ (k = k2) := fun he => h he.symm
  induction l with
  | nil => simp [mapGet, mapSet, h2]
  | cons p rest ih =>
    obtain ⟨k1, v1⟩ := p
    by_cases h1 : k1 = k
    · subst h1
      simp [mapGet, mapSet, h2]
    · simp [mapGet, mapSet, h1, ih]

theorem mapGet_eq_none_of_not_mem_keys (l : List (String × α)) (k : String)
    (h : k ∉ l.map Prod.fst) : mapGet l k = none := by
  induction l with
  | nil => simp [mapGet]
  | cons p rest ih =>
    obtain ⟨k1, v1⟩ := p
    simp only [List.map_cons, List.mem_cons] at h
    push_neg at h
    have h1 : ¬ (k1 = k) := fun he => h.1 he.symm
    simp [mapGet, h1, ih h.2]

theorem mapGet_mapDelete_self (l : List (String × α)) (k : String)
    (h : NodupKeys l) : mapGet (mapDelete l k) k = none := by
  induction l with
  | nil => simp [mapGet, mapDelete]
  | cons p rest ih =>
    obtain ⟨k1, v1⟩ := p
    simp only [NodupKeys, List.map_cons, List.nodup_cons] at h
    by_cases h1 : k1 = k
    · subst h1
      simp only [mapDelete, if_pos rfl]
      exact mapGet_eq_none_of_not_mem_keys rest k1 h.1
    · simp [mapDelete, h1, mapGet, ih h.2]

theorem mapGet_mapDelete_ne (l : List (String × α)) (k k2 : String)
    (h : k2 ≠ k) : mapGet (mapDelete l k) k2 = mapGet l k2 := by
  have h2 : ¬ (k = k2) := fun he => h he.symm
  induction l with
  | nil => simp [mapDelete]
  | cons p rest ih =>
    obtain ⟨k1, v1⟩ := p
    by_cases h1 : k1 = k
    · subst h1
      simp [mapDelete, mapGet, h2]
    · simp [mapDelete, mapGet, h1, ih]

theorem keys_mapSet (l : List (String × α)) (k : String) (v : α) (k2 : String) :
    k2 ∈ (mapSet l k v).map Prod.fst ↔ k2 ∈ l.map Prod.fst ∨ k2 = k := by
  induction l with
  | nil => simp [mapSet]
  | cons p rest ih =>
    obtain ⟨k1, v1⟩ := p
    by_cases h1 : k1 = k
    · subst h1
      simp [mapSet]
      tauto
    · simp only [mapSet, if_neg h1, List.map_cons, List.mem_cons, ih]
      tauto

theorem nodupKeys_mapSet (l : List (String × α)) (k : String) (v : α)
    (h : NodupKeys l) : NodupKeys (mapSet l k v) := by
  induction l with
  | nil => simp [NodupKeys, mapSet]
  | cons p rest ih =>
    obtain ⟨k1, v1⟩ := p
    simp only [NodupKeys, List.map_cons, List.nodup_cons] at h
    by_cases h1 : k1 = k
    · subst h1
      simpa [NodupKeys, mapSet] using h
    · have hrest := ih h.2
      simp only [NodupKeys, mapSet, if_neg h1, List.map_cons, List.nodup_cons]
      refine ⟨fun hm => ?_, hrest⟩
      rcases (keys_mapSet rest k v k1).mp hm with hh | hh
      · exact h.1 hh
      · exact h1 hh

theorem keys_mapDelete_subset (l : List (String × α)) (k k2 : String)
    (h : k2 ∈ (mapDelete l k).map Prod.fst) : k2 ∈ l.map Prod.fst := by
  induction l with
  | nil => simp [mapDelete] at h
  | cons p rest ih =>
    obtain ⟨k1, v1⟩ := p
    by_cases h1 : k1 = k
    · subst h1
      simp only [mapDelete, if_pos rfl] at h
      simp only [List.map_cons, List.mem_cons]
      exact Or.inr h
    · simp only [mapDelete, if_neg h1, List.map_cons, List.mem_cons] at h ⊢
      rcases h with h | h
      · exact Or.inl h
      · exact Or.inr (ih h)

theorem nodupKeys_mapDelete (l : List (String × α)) (k : String)
    (h : NodupKeys l) : NodupKeys (mapDelete l k) := by
  induction l with
  | nil => simp [NodupKeys, mapDelete]
  | cons p rest ih =>
    obtain ⟨k1, v1⟩ := p
    simp only [NodupKeys, List.map_cons, List.nodup_cons] at h
    by_cases h1 : k1 = k
    · simpa [NodupKeys, mapDelete, h1] using h.2
    · simp only [NodupKeys, mapDelete, if_neg h1, List.map_cons, List.nodup_cons]
      exact ⟨fun hm => h.1 (keys_mapDelete_subset rest k k1 hm), ih h.2⟩

theorem mem_of_mapGet (l : List (String × α)) (k : String) (v : α)
    (h : mapGet l k = some v) : (k, v) ∈ l := by
  induction l with
  | nil => simp [mapGet] at h
  | cons p rest ih =>
    obtain ⟨k1, v1⟩ := p
    by_cases h1 : k1 = k
    · subst h1
      have h2 : v1 = v := by simpa [mapGet] using h
      subst h2
      exact List.mem_cons_self _ _
    · simp only [mapGet, if_neg h1] at h
      exact List.mem_cons_of_mem _ (ih h)

theorem mapGet_isSome_of_mem (l : List (String × α)) (k : String) (v : α)
    (h : (k, v) ∈ l) : (mapGet l k).isSome := by
  induction l with
  | nil => simp at h
  | cons p rest ih =>
    obtain ⟨k1, v1⟩ := p
    rcases List.mem_cons.mp h with hh | hh
    · have : k1 = k := (congrArg Prod.fst hh).symm
      simp [mapGet, this]
    · by_cases h1 : k1 = k
      · simp [mapGet, h1]
      · simp only [mapGet, if_neg h1]
        exact ih hh

theorem mapGet_of_mem_nodup (l : List (String × α)) (k : String) (v : α)
    (hnd : NodupKeys l) (h : (k, v) ∈ l) : mapGet l k = some v := by
  induction l with
  | nil => simp at h
  | cons p rest ih =>
    obtain ⟨k1, v1⟩ := p
    simp only [NodupKeys, List.map_cons, List.nodup_cons] at hnd
    rcases List.mem_cons.mp h with hh | hh
    · have hk : k1 = k := (congrArg Prod.fst hh).symm
      have hv : v1 = v := (congrArg Prod.snd hh).symm
      simp [mapGet, hk, hv]
    · have hne : ¬ (k1 = k) := by
        intro he
        subst he
        exact hnd.1 (by simpa using List.mem_map_of_mem Prod.fst hh)
      simp only [mapGet, if_neg hne]
      exact ih hnd.2 hh

theorem mem_setAdd (s : List String) (x y : String) :
    y ∈ setAdd s x ↔ y ∈ s ∨ y = x := by
  by_cases h : x ∈ s
  · simp only [setAdd, if_pos h]
    constructor
    · exact Or.inl
    · rintro (hy | rfl)
      · exact hy
      · exact h
  · simp [setAdd, if_neg h]

theorem nodup_setAdd (s : List String) (x : String) (h : s.Nodup) :
    (setAdd s x).Nodup := by
  by_cases hm : x ∈ s
  · simpa [setAdd, hm] using h
  · simp only [setAdd, if_neg hm]
    simpa [List.nodup_append] using ⟨h, fun hx => hm hx⟩

theorem mem_setDelete (s : List String) (x y : String) :
    y ∈ setDelete s x ↔ y ∈ s ∧ y ≠ x := by
  simp [setDelete]

theorem nodup_setDelete (s : List String) (x : String) (h : s.Nodup) :
    (setDelete s x).Nodup :=
  h.filter _

theorem mapSet_mapSet (l : List (String × α)) (k : String) (v w : α) :
    mapSet (mapSet l k v) k w = mapSet l k w := by
  induction l with
  | nil => simp [mapSet]
  | cons p rest ih =>
    obtain ⟨k1, v1⟩ := p
    by_cases h1 : k1 = k
    · subst h1
      simp [mapSet]
    · simp [mapSet, h1, ih]

theorem aligned_initial (σ : String → String) : Aligned σ initialManagerState := by
  refine ⟨?_, ?_, ?_, ?_, ?_, ?_⟩ <;>
    simp [initialManagerState, NodupKeys, mapGet]

theorem addConnection_connections (st : ManagerState) (c : Conn) :
    (addConnection st c).connections = mapSet st.connections c.id c := rfl

theorem addConnection_sess_present (st : ManagerState) (c : Conn) (s : List String)
    (hs : mapGet st.sessionConnections c.sessionId = some s) :
    (addConnection st c).sessionConnections =
      mapSet st.sessionConnections c.sessionId (setAdd s c.id) := by
  simp [addConnection, hs]

theorem addConnection_sess_absent (st : ManagerState) (c : Conn)
    (hs : mapGet st.sessionConnections c.sessionId = none) :
    (addConnection st c).sessionConnections =
      mapSet st.sessionConnections c.sessionId [c.id] := by
  simp only [addConnection, hs, Option.isSome_none, Bool.false_eq_true, if_false]
  rw [mapGet_mapSet_self]
  simp [mapSet_mapSet, setAdd]

theorem aligned_addConnection (σ : String → String) (st : ManagerState) (c : Conn)
    (hA : Aligned σ st) (hσ : c.sessionId = σ c.id) :
    Aligned σ (addConnection st c) := by
  have hconn : (addConnection st c).connections = mapSet st.connections c.id c := rfl
  cases hs : mapGet st.sessionConnections c.sessionId with
  | some s =>
    have hsess := addConnection_sess_present st c s hs
    refine ⟨?_, ?_, ?_, ?_, ?_, ?_⟩
    · rw [hconn]; exact nodupKeys_mapSet _ _ _ hA.nodupConn
    · rw [hsess]; exact nodupKeys_mapSet _ _ _ hA.nodupSess
    · intro sid2 s2 hg
      rw [hsess] at hg
      by_cases he : sid2 = c.sessionId
      · subst he
        rw [mapGet_mapSet_self] at hg
        cases hg
        exact nodup_setAdd _ _ (hA.nodupSets _ _ hs)
      · rw [mapGet_mapSet_ne _ _ _ _ he] at hg
        exact hA.nodupSets _ _ hg
    · intro id c2 hg
      rw [hconn] at hg
      by_cases he : id = c.id
      · subst he
        rw [mapGet_mapSet_self] at hg
        cases hg
        exact ⟨rfl, hσ⟩
      · rw [mapGet_mapSet_ne _ _ _ _ he] at hg
        exact hA.connKey _ _ hg
    · intro id c2 hg
      rw [hconn] at hg
      rw [hsess]
      by_cases he : id = c.id
      · subst he
        refine ⟨setAdd s c.id, ?_, ?_⟩
        · rw [← hσ, mapGet_mapSet_self]
        · exact (mem_setAdd _ _ _).mpr (Or.inr rfl)
      · rw [mapGet_mapSet_ne _ _ _ _ he] at hg
        obtain ⟨s4, hs4, hmem⟩ := hA.connInSet _ _ hg
        by_cases he2 : σ id = c.sessionId
        · rw [he2] at hs4
          rw [hs4] at hs
          cases hs
          refine ⟨setAdd s c.id, ?_, ?_⟩
          · rw [he2, mapGet_mapSet_self]
          · exact (mem_setAdd _ _ _).mpr (Or.inl hmem)
        · rw [mapGet_mapSet_ne _ _ _ _ he2]
          exact ⟨s4, hs4, hmem⟩
    · intro sid2 s2 hg id hmem
      rw [hsess] at hg
      rw [hconn]
      by_cases he : sid2 = c.sessionId
      · subst he
        rw [mapGet_mapSet_self] at hg
        cases hg
        rcases (mem_setAdd _ _ _).mp hmem with hin | heq
        · by_cases hid : id = c.id
          · subst hid
            rw [mapGet_mapSet_self]
            exact ⟨c, rfl, rfl⟩
          · rw [mapGet_mapSet_ne _ _ _ _ hid]
            exact hA.setInConn _ _ hs _ hin
        · subst heq
          rw [mapGet_mapSet_self]
          exact ⟨c, rfl, rfl⟩
      · rw [mapGet_mapSet_ne _ _ _ _ he] at hg
        obtain ⟨c2, hc2, hc2s⟩ := hA.setInConn _ _ hg _ hmem
        by_cases hid : id = c.id
        · subst hid
          have := (hA.connKey _ _ hc2).2
          rw [this] at hc2s
          rw [← hσ] at hc2s
          exact absurd hc2s.symm he
        · rw [mapGet_mapSet_ne _ _ _ _ hid]
          exact ⟨c2, hc2, hc2s⟩
  | none =>
    have hsess := addConnection_sess_absent st c hs
    refine ⟨?_, ?_, ?_, ?_, ?_, ?_⟩
    · rw [hconn]; exact nodupKeys_mapSet _ _ _ hA.nodupConn
    · rw [hsess]; exact nodupKeys_mapSet _ _ _ hA.nodupSess
    · intro sid2 s2 hg
      rw [hsess] at hg
      by_cases he : sid2 = c.sessionId
      · subst he
        rw [mapGet_mapSet_self] at hg
        cases hg
        simp
      · rw [mapGet_mapSet_ne _ _ _ _ he] at hg
        exact hA.nodupSets _ _ hg
    · intro id c2 hg
      rw [hconn] at hg
      by_cases he : id = c.id
      · subst he
        rw [mapGet_mapSet_self] at hg
        cases hg
        exact ⟨rfl, hσ⟩
      · rw [mapGet_mapSet_ne _ _ _ _ he] at hg
        exact hA.connKey _ _ hg
    · intro id c2 hg
      rw [hconn] at hg
      rw [hsess]
      by_cases he : id = c.id
      · subst he
        refine ⟨[c.id], ?_, ?_⟩
        · rw [← hσ, mapGet_mapSet_self]
        · simp
      · rw [mapGet_mapSet_ne _ _ _ _ he] at hg
        obtain ⟨s4, hs4, hmem⟩ := hA.connInSet _ _ hg
        by_cases he2 : σ id = c.sessionId
        · rw [he2] at hs4
          rw [hs4] at hs
          cases hs
        · rw [mapGet_mapSet_ne _ _ _ _ he2]
          exact ⟨s4, hs4, hmem⟩
    · intro sid2 s2 hg id hmem
      rw [hsess] at hg
      rw [hconn]
      by_cases he : sid2 = c.sessionId
      · subst he
        rw [mapGet_mapSet_self] at hg
        cases hg
        simp only [List.mem_singleton] at hmem
        subst hmem
        rw [mapGet_mapSet_self]
        exact ⟨c, rfl, rfl⟩
      · rw [mapGet_mapSet_ne _ _ _ _ he] at hg
        obtain ⟨c2, hc2, hc2s⟩ := hA.setInConn _ _ hg _ hmem
        by_cases hid : id = c.id
        · subst hid
          have := (hA.connKey _ _ hc2).2
          rw [this] at hc2s
          rw [← hσ] at hc2s
          exact absurd hc2s.symm he
        · rw [mapGet_mapSet_ne _ _ _ _ hid]
          exact ⟨c2, hc2, hc2s⟩

theorem aligned_removeConnection (σ : String → String) (st : ManagerState)
    (rid : String) (hA : Aligned σ st) :
    Aligned σ (removeConnection st rid) := by
  cases hg : mapGet st.connections rid with
  | none =>
    have : removeConnection st rid = st := by simp [removeConnection, hg]
    rw [this]
    exact hA
  | some c =>
    obtain ⟨hcid, hcs⟩ := hA.connKey _ _ hg
    obtain ⟨s, hs, hmem⟩ := hA.connInSet _ _ hg
    have hsc : mapGet st.sessionConnections c.sessionId = some s := by
      rw [hcs]; exact hs
    have hconn : (removeConnection st rid).connections = mapDelete st.connections rid := by
      simp [removeConnection, hg]
    have hsess : (removeConnection st rid).sessionConnections =
        (if (setDelete s rid).length = 0 then
           mapDelete st.sessionConnections c.sessionId
         else
           mapSet st.sessionConnections c.sessionId (setDelete s rid)) := by
      simp [removeConnection, hg, hsc]
    refine ⟨?_, ?_, ?_, ?_, ?_, ?_⟩
    · rw [hconn]; exact nodupKeys_mapDelete _ _ hA.nodupConn
    · rw [hsess]
      split
      · exact nodupKeys_mapDelete _ _ hA.nodupSess
      · exact nodupKeys_mapSet _ _ _ hA.nodupSess
    · intro sid2 s2 hget
      rw [hsess] at hget
      split at hget
      · by_cases he : sid2 = c.sessionId
        · subst he
          rw [mapGet_mapDelete_self _ _ hA.nodupSess] at hget
          cases hget
        · rw [mapGet_mapDelete_ne _ _ _ he] at hget
          exact hA.nodupSets _ _ hget
      · by_cases he : sid2 = c.sessionId
        · subst he
          rw [mapGet_mapSet_self] at hget
          cases hget
          exact nodup_setDelete _ _ (hA.nodupSets _ _ hsc)
        · rw [mapGet_mapSet_ne _ _ _ _ he] at hget
          exact hA.nodupSets _ _ hget
    · intro id c2 hget
      rw [hconn] at hget
      by_cases he : id = rid
      · subst he
        rw [mapGet_mapDelete_self _ _ hA.nodupConn] at hget
        cases hget
      · rw [mapGet_mapDelete_ne _ _ _ he] at hget
        exact hA.connKey _ _ hget
    · intro id c2 hget
      rw [hconn] at hget
      by_cases he : id = rid
      · subst he
        rw [mapGet_mapDelete_self _ _ hA.nodupConn] at hget
        cases hget
      · rw [mapGet_mapDelete_ne _ _ _ he] at hget
        obtain ⟨s4, hs4, hmem4⟩ := hA.connInSet _ _ hget
        rw [hsess]
        by_cases he2 : σ id = c.sessionId
        · rw [he2] at hs4
          rw [hsc] at hs4
          have hse : s4 = s := (Option.some.inj hs4).symm
          subst hse
          have hm2 : id ∈ setDelete s4 rid := (mem_setDelete _ _ _).mpr ⟨hmem4, he⟩
          have hlne : ¬ (setDelete s4 rid).length = 0 := by
            intro hlen
            rw [List.length_eq_zero] at hlen
            rw [hlen] at hm2
            simp at hm2
          rw [if_neg hlne, he2]
          exact ⟨setDelete s4 rid, mapGet_mapSet_self _ _ _, hm2⟩
        · split
          · rw [mapGet_mapDelete_ne _ _ _ he2]
            exact ⟨s4, hs4, hmem4⟩
          · rw [mapGet_mapSet_ne _ _ _ _ he2]
            exact ⟨s4, hs4, hmem4⟩
    · intro sid2 s2 hget id hmem2
      rw [hconn]
      rw [hsess] at hget
      have hold : mapGet st.sessionConnections sid2 = some s2 ∧ id ≠ rid ∨
          sid2 = c.sessionId ∧ s2 = setDelete s rid := by
        split at hget
        · by_cases he : sid2 = c.sessionId
          · subst he
            rw [mapGet_mapDelete_self _ _ hA.nodupSess] at hget
            cases hget
          · rw [mapGet_mapDelete_ne _ _ _ he] at hget
            left
            refine ⟨hget, ?_⟩
            intro hid
            subst hid
            obtain ⟨c2, hc2, hc2s⟩ := hA.setInConn _ _ hget _ hmem2
            rw [hg] at hc2
            cases hc2
            rw [hcs] at hc2s
            rw [← hc2s] at he
            rw [← hcs] at he
            exact he rfl
        · by_cases he : sid2 = c.sessionId
          · subst he
            rw [mapGet_mapSet_self] at hget
            cases hget
            right
            exact ⟨rfl, rfl⟩
          · rw [mapGet_mapSet_ne _ _ _ _ he] at hget
            left
            refine ⟨hget, ?_⟩
            intro hid
            subst hid
            obtain ⟨c2, hc2, hc2s⟩ := hA.setInConn _ _ hget _ hmem2
            rw [hg] at hc2
            cases hc2
            rw [hcs] at hc2s
            rw [← hc2s] at he
            rw [← hcs] at he
            exact he rfl
      rcases hold with ⟨hget2, hne⟩ | ⟨hsid, hs2⟩
      · obtain ⟨c2, hc2, hc2s⟩ := hA.setInConn _ _ hget2 _ hmem2
        rw [mapGet_mapDelete_ne _ _ _ hne]
        exact ⟨c2, hc2, hc2s⟩
      · subst hsid
        subst hs2
        obtain ⟨hin, hne⟩ := (mem_setDelete _ _ _).mp hmem2
        obtain ⟨c2, hc2, hc2s⟩ := hA.setInConn _ _ hsc _ hin
        rw [mapGet_mapDelete_ne _ _ _ hne]
        exact ⟨c2, hc2, hc2s⟩

theorem aligned_applyEvent (σ : String → String) (st : ManagerState)
    (e : RegEvent) (hA : Aligned σ st)
    (he : ∀ c, e = RegEvent.add c → c.sessionId = σ c.id) :
    Aligned σ (applyEvent st e) := by
  cases e with
  | add c => exact aligned_addConnection σ st c hA (he c rfl)
  | remove rid => exact aligned_removeConnection σ st rid hA

theorem aligned_applyEvents (σ : String → String) (st : ManagerState)
    (evs : List RegEvent) (hA : Aligned σ st)
    (h : addsConsistentB σ evs = true) :
    Aligned σ (applyEvents st evs) := by
  induction evs generalizing st with
  | nil => exact hA
  | cons e es ih =>
    simp only [addsConsistentB, List.all_cons, Bool.and_eq_true] at h
    refine ih (applyEvent st e) (aligned_applyEvent σ st e hA ?_) ?_
    · intro c hc
      subst hc
      simpa using h.1
    · simpa [addsConsistentB] using h.2

theorem registryInvariantB_of_aligned (σ : String → String) (st : ManagerState)
    (hA : Aligned σ st) : registryInvariantB st = true := by
  simp only [registryInvariantB, Bool.and_eq_true, List.all_eq_true, List.any_eq_true]
  constructor
  · intro p hp
    have hsome : (mapGet st.connections p.1).isSome :=
      mapGet_isSome_of_mem _ _ p.2 (by simpa using hp)
    obtain ⟨c, hc⟩ := Option.isSome_iff_exists.mp hsome
    obtain ⟨s, hsget, hmem⟩ := hA.connInSet _ _ hc
    refine ⟨(σ p.1, s), mem_of_mapGet _ _ _ hsget, ?_⟩
    simpa [List.contains] using hmem
  · intro q hq id hid
    have hget : mapGet st.sessionConnections q.1 = some q.2 :=
      mapGet_of_mem_nodup _ _ _ hA.nodupSess (by simpa using hq)
    obtain ⟨c, hc, hcs⟩ := hA.setInConn _ _ hget _ hid
    simp [hc]

/-- C2, counterexample to the claim as stated: for the call sequence
`addConnection ⟨"c","s1"⟩; addConnection ⟨"c","s2"⟩; removeConnection "c"`
the registry invariant fails after the last call — re-registering the same
connectionId under a different sessionId leaves an orphaned id `"c"` in the
`"s1"` session set while the primary map is empty. -/
theorem C2_counterexample :
    registryInvariantB (applyEvents initialManagerState
      [RegEvent.add ⟨"c", "s1", true⟩, RegEvent.add ⟨"c", "s2", true⟩,
       RegEvent.remove "c"]) = false := by
  decide

/-- C2 (amended): for every sequence of `addConnection` / `removeConnection`
calls in which no connectionId is registered under two different sessionIds
(witnessed by a session assignment `σ` that every `add` respects — true of
the running system, where connectionIds are fresh UUIDs), after each call
(i.e. after every prefix `pre` of the sequence) the set of connectionIds
that are keys of the primary connection map equals exactly the union of the
connectionId sets stored in the session index. -/
theorem C2_registry_invariant (σ : String → String) (evs pre suf : List RegEvent)
    (hsplit : evs = pre ++ suf) (h : addsConsistentB σ evs = true) :
    registryInvariantB (applyEvents initialManagerState pre) = true := by
  have hpre : addsConsistentB σ pre = true := by
    subst hsplit
    simp only [addsConsistentB, List.all_append, Bool.and_eq_true] at h
    exact h.1
  exact registryInvariantB_of_aligned σ _
    (aligned_applyEvents σ initialManagerState pre (aligned_initial σ) hpre)

/-- C2, witness: the amended theorem applied to the concrete sequence
`add ⟨"c1","s1"⟩; add ⟨"c2","s1"⟩; remove "c1"` at the prefix of length 2. -/
theorem C2_registry_invariant_witness :
    registryInvariantB (applyEvents initialManagerState
      [RegEvent.add ⟨"c1", "s1", true⟩, RegEvent.add ⟨"c2", "s1", true⟩]) = true :=
  C2_registry_invariant (fun _ => "s1")
    [RegEvent.add ⟨"c1", "s1", true⟩, RegEvent.add ⟨"c2", "s1", true⟩,
     RegEvent.remove "c1"]
    [RegEvent.add ⟨"c1", "s1", true⟩, RegEvent.add ⟨"c2", "s1", true⟩]
    [RegEvent.remove "c1"] rfl (by decide)

theorem doSend_connections (st : ManagerState) (c : Conn) (m : OutMessage) :
    (doSend st c m).1.connections = st.connections := by
  by_cases h : c.isOpen = true <;> simp [doSend, h]

theorem doSend_sessionConnections (st : ManagerState) (c : Conn) (m : OutMessage) :
    (doSend st c m).1.sessionConnections = st.sessionConnections := by
  by_cases h : c.isOpen = true <;> simp [doSend, h]

theorem doSend_rec (st : ManagerState) (c : Conn) (m : OutMessage) :
    (doSend st c m).2 = ⟨c.id, m, c.isOpen⟩ := by
  by_cases h : c.isOpen = true <;> simp [doSend, h]

/-- C1 (code bug): the dispatcher builds `sanitizedMessage` but the
component branch passes the RAW `message.payload` into the component
handler's context (`src/lib/monitor.ts:797` uses `message.payload`, not
`sanitizedMessage.payload`). At the failing input — component `"echo"`
registered with an echo `server` handler and payload `"<script>"` — the
handler receives and returns the raw string, although
`sanitizeInput` would have produced `"&lt;script&gt;"`; only the route
fallback receives the sanitized message. -/
theorem C1_component_handler_gets_raw_payload :
    (handleMessage initialManagerState
        [("echo", ⟨some (fun d => Except.ok d)⟩)]
        (some (fun _ _ => Except.ok (JValue.str "route-result")))
        ⟨"echo", "e", JValue.str "<script>"⟩ ⟨"c1", "s1", true⟩ "t0").2 =
      [⟨"c1", OutMessage.eventResult "e" true (some (JValue.str "<script>"))
          none "t0", true⟩] ∧
    sanitizeInput (JValue.str "<script>") = JValue.str "&lt;script&gt;" :=
  ⟨rfl, rfl⟩

/-- C3, counterexample to the claim as stated: on a frame that fails JSON
parsing the server's single response envelope has wire type `"error"` (with
an `error` field and no `success` field), not an `"event-result"` envelope
with `success:false` as the claim asserts. -/
theorem C3_counterexample :
    ((socketOnMessage initialManagerState [] none ⟨"c1", "s1", true⟩ none
        "t0").2.map (fun r => r.message.typeField) = ["error"]) ∧
      "error" ≠ "event-result" :=
  ⟨rfl, by decide⟩

/-- C3 (amended): for every inbound frame that fails to parse as JSON, the
server responds on the originating connection with the typed
`{type:"error", error:"Invalid message format"}` envelope (referencing no
event name), the connection stays registered (both registry maps are
untouched), and no exception propagates into the transport layer
(`socketOnMessage` is total: the catch-block converts the parse failure
into this envelope). -/
theorem C3_malformed_frame (st : ManagerState)
    (components : List (String × ComponentDefinition))
    (routeHandler : Option RouteMessageHandler)
    (connection : Conn) (now : String) :
    (socketOnMessage st components routeHandler connection none now).2 =
      [⟨connection.id, OutMessage.errorEnvelope "Invalid message format" now,
        connection.isOpen⟩] ∧
    (socketOnMessage st components routeHandler connection none now).1.connections =
      st.connections ∧
    (socketOnMessage st components routeHandler connection none
        now).1.sessionConnections = st.sessionConnections := by
  refine ⟨?_, ?_, ?_⟩ <;>
    simp [socketOnMessage, doSend_rec, doSend_connections, doSend_sessionConnections]

/-- C4: for every handler failure — a component or route handler throwing
synchronously or rejecting asynchronously, i.e. every dispatch whose
outcome is `Except.error e` — the dispatcher sends exactly one
`{type:"event-result", success:false, error:e}` envelope, addressed to the
originating connection only, the registry maps are unchanged (the
connection remains registered), and the exception does not propagate: the
catch-block of `handleMessage` yields this envelope and `handleMessage`
is total. -/
theorem C4_dispatch_never_throws (st : ManagerState)
    (components : List (String × ComponentDefinition))
    (routeHandler : Option RouteMessageHandler)
    (message : ServerEventMessage) (connection : Conn) (now : String)
    (e : String)
    (h : dispatchOutcome components routeHandler message connection =
      Except.error e) :
    (handleMessage st components routeHandler message connection now).2 =
      [⟨connection.id,
        OutMessage.eventResult message.event false none (some e) now,
        connection.isOpen⟩] ∧
    (handleMessage st components routeHandler message connection
        now).1.connections = st.connections ∧
    (handleMessage st components routeHandler message connection
        now).1.sessionConnections = st.sessionConnections := by
  refine ⟨?_, ?_, ?_⟩ <;>
    simp [handleMessage, h, doSend_rec, doSend_connections,
      doSend_sessionConnections]

/-- C4, witness: a registered component whose handler throws `"kaboom"`;
the dispatcher answers with the failure envelope on the originating
connection and the registry is untouched. -/
theorem C4_dispatch_never_throws_witness :
    (handleMessage initialManagerState
        [("boom", ⟨some (fun _ => Except.error "kaboom")⟩)] none
        ⟨"boom", "e", JValue.null⟩ ⟨"c1", "s1", true⟩ "t0").2 =
      [⟨"c1", OutMessage.eventResult "e" false none (some "kaboom") "t0",
        true⟩] ∧
    (handleMessage initialManagerState
        [("boom", ⟨some (fun _ => Except.error "kaboom")⟩)] none
        ⟨"boom", "e", JValue.null⟩ ⟨"c1", "s1", true⟩ "t0").1.connections =
      initialManagerState.connections ∧
    (handleMessage initialManagerState
        [("boom", ⟨some (fun _ => Except.error "kaboom")⟩)] none
        ⟨"boom", "e", JValue.null⟩ ⟨"c1", "s1", true⟩
        "t0").1.sessionConnections = initialManagerState.sessionConnections :=
  C4_dispatch_never_throws initialManagerState
    [("boom", ⟨some (fun _ => Except.error "kaboom")⟩)] none
    ⟨"boom", "e", JValue.null⟩ ⟨"c1", "s1", true⟩ "t0" "kaboom" rfl

theorem broadcastToSessionGo_count (m : OutMessage) (ids : List String) :
    ∀ st : ManagerState, (∀ id ∈ ids, (mapGet st.connections id).isSome) →
      (broadcastToSessionGo st m ids).2.1 = ids.length := by
  induction ids with
  | nil => intro st _; simp [broadcastToSessionGo]
  | cons id rest ih =>
    intro st h
    have hid := h id (List.mem_cons_self _ _)
    obtain ⟨c, hc⟩ := Option.isSome_iff_exists.mp hid
    have hrest : ∀ i ∈ rest, (mapGet (doSend st c m).1.connections i).isSome := by
      intro i hi
      rw [doSend_connections]
      exact h i (List.mem_cons_of_mem _ hi)
    simp [broadcastToSessionGo, hc, ih _ hrest]

/-- C5, counterexample to the claim as stated: a session `"s1"` holding one
registered connection `"c1"` whose transport is closed. The claim says the
returned count equals the number of connections actually open and reached
(here 0); `broadcastToSession` returns 1 — `sentCount++` runs for every
registered connection of the session, also when `send` is a silent no-op on
a closed transport (0 envelopes were delivered). -/
theorem C5_counterexample :
    (broadcastToSession
        { connections := [("c1", ⟨"c1", "s1", false⟩)],
          sessionConnections := [("s1", ["c1"])],
          stats := ⟨1, 1, 0, 0, 0⟩ } "s1" (OutMessage.app JValue.null)).2.1 = 1 ∧
    ((broadcastToSession
        { connections := [("c1", ⟨"c1", "s1", false⟩)],
          sessionConnections := [("s1", ["c1"])],
          stats := ⟨1, 1, 0, 0, 0⟩ } "s1"
        (OutMessage.app JValue.null)).2.2.filter
          (fun r => r.delivered)).length = 0 :=
  ⟨rfl, rfl⟩

/-- C5 (amended): in every aligned registry state, `broadcastToSession`
returns the number of currently-registered connections of that session —
whether or not their transports are open (a closed connection's `send` is a
silent no-op but it is still counted) — and 0 when the session is absent
from the index (then no registered connection carries that sessionId). -/
theorem C5_broadcastToSession_count (σ : String → String) (st : ManagerState)
    (hA : Aligned σ st) (sid : String) (m : OutMessage) :
    (broadcastToSession st sid m).2.1 =
      (st.connections.filter (fun p => p.2.sessionId == sid)).length := by
  cases hm : mapGet st.sessionConnections sid with
  | none =>
    have hfil : st.connections.filter (fun p => p.2.sessionId == sid) = [] := by
      rw [List.filter_eq_nil_iff]
      rintro ⟨k, c⟩ hp
      simp only [beq_iff_eq]
      intro hcs
      have hk : mapGet st.connections k = some c :=
        mapGet_of_mem_nodup _ _ _ hA.nodupConn hp
      obtain ⟨s, hs, _⟩ := hA.connInSet _ _ hk
      have hsk : σ k = sid := by rw [← (hA.connKey _ _ hk).2, hcs]
      rw [hsk, hm] at hs
      cases hs
    simp [broadcastToSession, hm, hfil]
  | some s =>
    have hcount : (broadcastToSessionGo st m s).2.1 = s.length :=
      broadcastToSessionGo_count m s st (fun id hid => by
        obtain ⟨c, hc, _⟩ := hA.setInConn _ _ hm _ hid
        simp [hc])
    have hnd1 : s.Nodup := hA.nodupSets _ _ hm
    have hsub : List.Sublist
        ((st.connections.filter (fun p => p.2.sessionId == sid)).map Prod.fst)
        (st.connections.map Prod.fst) :=
      (List.filter_sublist _).map Prod.fst
    have hnd2 : ((st.connections.filter
        (fun p => p.2.sessionId == sid)).map Prod.fst).Nodup :=
      List.Nodup.sublist hsub hA.nodupConn
    have hmemiff : ∀ id, id ∈ s ↔ id ∈ (st.connections.filter
        (fun p => p.2.sessionId == sid)).map Prod.fst := by
      intro id
      constructor
      · intro hid
        obtain ⟨c, hc, hcs⟩ := hA.setInConn _ _ hm _ hid
        have hpm : (id, c) ∈ st.connections := mem_of_mapGet _ _ _ hc
        have hpf : (id, c) ∈ st.connections.filter
            (fun p => p.2.sessionId == sid) :=
          List.mem_filter.mpr ⟨hpm, by simp [hcs]⟩
        exact List.mem_map_of_mem Prod.fst hpf
      · intro hid
        obtain ⟨p, hpf, hpe⟩ := List.mem_map.mp hid
        obtain ⟨hpm, hpp⟩ := List.mem_filter.mp hpf
        obtain ⟨k, c⟩ := p
        cases hpe
        have hk : mapGet st.connections k = some c :=
          mapGet_of_mem_nodup _ _ _ hA.nodupConn hpm
        obtain ⟨s2, hs2, hmem2⟩ := hA.connInSet _ _ hk
        have hsk : σ k = sid := by
          rw [← (hA.connKey _ _ hk).2]
          simpa using hpp
        rw [hsk, hm] at hs2
        cases hs2
        exact hmem2
    have hfin : s.toFinset = ((st.connections.filter
        (fun p => p.2.sessionId == sid)).map Prod.fst).toFinset := by
      ext id
      simp only [List.mem_toFinset]
      exact hmemiff id
    have hlen : s.length = (st.connections.filter
        (fun p => p.2.sessionId == sid)).length := by
      calc s.length = s.toFinset.card := (List.toFinset_card_of_nodup hnd1).symm
        _ = ((st.connections.filter
            (fun p => p.2.sessionId == sid)).map Prod.fst).toFinset.card := by
          rw [hfin]
        _ = ((st.connections.filter
            (fun p => p.2.sessionId == sid)).map Prod.fst).length :=
          List.toFinset_card_of_nodup hnd2
        _ = (st.connections.filter
            (fun p => p.2.sessionId == sid)).length := List.length_map _ _
    simp only [broadcastToSession, hm]
    rw [hcount, hlen]

/-- C5, witness: the amended count theorem applied to the registry holding
`a1`,`a2` under `"s1"` (one of them closed) and `b1` under `"s2"`:
`broadcastToSession "s1"` returns 2. -/
theorem C5_broadcastToSession_count_witness :
    (broadcastToSession (applyEvents initialManagerState
        [RegEvent.add ⟨"a1", "s1", true⟩, RegEvent.add ⟨"a2", "s1", false⟩,
         RegEvent.add ⟨"b1", "s2", true⟩]) "s1"
      (OutMessage.app JValue.null)).2.1 = 2 := by
  have h := C5_broadcastToSession_count
    (fun id => if id = "b1" then "s2" else "s1")
    (applyEvents initialManagerState
      [RegEvent.add ⟨"a1", "s1", true⟩, RegEvent.add ⟨"a2", "s1", false⟩,
       RegEvent.add ⟨"b1", "s2", true⟩])
    (aligned_applyEvents _ _ _ (aligned_initial _) (by decide)) "s1"
    (OutMessage.app JValue.null)
  exact h.trans (by decide)

theorem broadcastToSessionGo_sends (m : OutMessage) (ids : List String) :
    ∀ st : ManagerState, (broadcastToSessionGo st m ids).2.2 =
      ids.filterMap (fun id => (mapGet st.connections id).map
        (fun c => ⟨c.id, m, c.isOpen⟩)) := by
  induction ids with
  | nil => intro st; simp [broadcastToSessionGo]
  | cons id rest ih =>
    intro st
    cases hc : mapGet st.connections id with
    | some c =>
      simp [broadcastToSessionGo, hc, doSend_rec, ih, doSend_connections]
    | none => simp [broadcastToSessionGo, hc, ih]

theorem broadcastGo_sends (m : OutMessage) (options : BroadcastOptions) :
    ∀ (st : ManagerState) (l : List (String × Conn)),
      (broadcastGo st m options l).2.2 =
        l.filterMap (fun p =>
          if shouldSendToConnection p.2 options
          then some ⟨p.2.id, m, p.2.isOpen⟩ else none) := by
  intro st l
  induction l generalizing st with
  | nil => simp [broadcastGo]
  | cons p rest ih =>
    obtain ⟨k, c⟩ := p
    by_cases hs : shouldSendToConnection c options
    · simp [broadcastGo, hs, doSend_rec, ih]
    · simp [broadcastGo, hs, ih]

theorem shouldSend_exclude (c : Conn) (sid : String) (hsid : sid ≠ "") :
    shouldSendToConnection c ⟨none, some sid, none, none⟩ =
      !(c.sessionId == sid) := by
  by_cases h : c.sessionId = sid <;>
    simp [shouldSendToConnection, strTruthy, hsid, h]

/-- C6: in every aligned registry state (with a non-empty sessionId, since
an empty string fails the JavaScript truthiness guard in
`shouldSendToConnection`), `broadcastToSession sid` invokes `send` on
exactly the currently-registered connections whose sessionId is `sid`
(delivery to a closed transport being the send closure's silent no-op),
and `broadcast` with `excludeSessionId = sid` invokes `send` on exactly
the registered connections whose sessionId differs from `sid`. -/
theorem C6_targeting (σ : String → String) (st : ManagerState)
    (hA : Aligned σ st) (sid : String) (m : OutMessage) (hsid : sid ≠ "") :
    (∀ id, (∃ r ∈ (broadcastToSession st sid m).2.2, SendRec.connId r = id) ↔
      (∃ c, mapGet st.connections id = some c ∧ c.sessionId = sid)) ∧
    (∀ id, (∃ r ∈ (broadcast st m
          ⟨none, some sid, none, none⟩).2.2, SendRec.connId r = id) ↔
      (∃ c, mapGet st.connections id = some c ∧ c.sessionId ≠ sid)) := by
  constructor
  · intro id
    cases hm : mapGet st.sessionConnections sid with
    | none =>
      simp only [broadcastToSession, hm]
      constructor
      · rintro ⟨r, hr, _⟩
        simp at hr
      · rintro ⟨c, hc, hcs⟩
        obtain ⟨s, hs, _⟩ := hA.connInSet _ _ hc
        have hσ : σ id = sid := by rw [← (hA.connKey _ _ hc).2, hcs]
        rw [hσ, hm] at hs
        cases hs
    | some s =>
      simp only [broadcastToSession, hm]
      rw [broadcastToSessionGo_sends]
      constructor
      · rintro ⟨r, hr, hrid⟩
        obtain ⟨id2, hid2, hmap⟩ := List.mem_filterMap.mp hr
        cases hc2 : mapGet st.connections id2 with
        | none => rw [hc2] at hmap; cases hmap
        | some c =>
          rw [hc2] at hmap
          have hrc : r = ⟨c.id, m, c.isOpen⟩ := by
            simpa using hmap.symm
          obtain ⟨c2, hc2g, hcs2⟩ := hA.setInConn _ _ hm _ hid2
          rw [hc2] at hc2g
          have hcc : c = c2 := Option.some.inj hc2g
          rw [← hcc] at hcs2
          have hid : id = id2 := by
            rw [← hrid, hrc]
            exact (hA.connKey _ _ hc2).1
          subst hid
          exact ⟨c, hc2, hcs2⟩
      · rintro ⟨c, hc, hcs⟩
        obtain ⟨s2, hs2, hmem⟩ := hA.connInSet _ _ hc
        have hσ : σ id = sid := by rw [← (hA.connKey _ _ hc).2, hcs]
        rw [hσ, hm] at hs2
        have hss : s = s2 := Option.some.inj hs2
        rw [← hss] at hmem
        refine ⟨⟨c.id, m, c.isOpen⟩, ?_, (hA.connKey _ _ hc).1⟩
        exact List.mem_filterMap.mpr ⟨id, hmem, by rw [hc]; rfl⟩
  · intro id
    have hsends := broadcastGo_sends m ⟨none, some sid, none, none⟩ st
      st.connections
    constructor
    · rintro ⟨r, hr, hrid⟩
      rw [show (broadcast st m ⟨none, some sid, none, none⟩).2.2 =
          (broadcastGo st m ⟨none, some sid, none, none⟩ st.connections).2.2
        from rfl, hsends] at hr
      obtain ⟨p, hp, hif⟩ := List.mem_filterMap.mp hr
      by_cases hss : shouldSendToConnection p.2 ⟨none, some sid, none, none⟩
      · rw [if_pos hss] at hif
        have hrc : r = ⟨p.2.id, m, p.2.isOpen⟩ := (Option.some.inj hif).symm
        obtain ⟨k, c⟩ := p
        have hk : mapGet st.connections k = some c :=
          mapGet_of_mem_nodup _ _ _ hA.nodupConn hp
        have hid : id = k := by
          rw [← hrid, hrc]
          exact (hA.connKey _ _ hk).1
        subst hid
        refine ⟨c, hk, ?_⟩
        intro he
        rw [shouldSend_exclude c sid hsid] at hss
        simp [he] at hss
      · rw [if_neg hss] at hif
        cases hif
    · rintro ⟨c, hc, hcne⟩
      have hp : (id, c) ∈ st.connections := mem_of_mapGet _ _ _ hc
      refine ⟨⟨c.id, m, c.isOpen⟩, ?_, (hA.connKey _ _ hc).1⟩
      rw [show (broadcast st m ⟨none, some sid, none, none⟩).2.2 =
          (broadcastGo st m ⟨none, some sid, none, none⟩ st.connections).2.2
        from rfl, hsends]
      refine List.mem_filterMap.mpr ⟨(id, c), hp, ?_⟩
      rw [if_pos ?_]
      · rw [shouldSend_exclude c sid hsid]
        simp [hcne]

/-- C6, witness: the targeting theorem applied to a registry holding `a1`
under `"s1"` and `b1` under `"s2"`: `broadcastToSession "s1"` reaches `a1`,
while `broadcast` excluding `"s1"` does not. -/
theorem C6_targeting_witness :
    (∃ r ∈ (broadcastToSession (applyEvents initialManagerState
        [RegEvent.add ⟨"a1", "s1", true⟩, RegEvent.add ⟨"b1", "s2", true⟩])
        "s1" (OutMessage.app JValue.null)).2.2, SendRec.connId r = "a1") ∧
    ¬ (∃ r ∈ (broadcast (applyEvents initialManagerState
        [RegEvent.add ⟨"a1", "s1", true⟩, RegEvent.add ⟨"b1", "s2", true⟩])
        (OutMessage.app JValue.null)
        ⟨none, some "s1", none, none⟩).2.2, SendRec.connId r = "a1") := by
  have h := C6_targeting (fun id => if id = "b1" then "s2" else "s1")
    (applyEvents initialManagerState
      [RegEvent.add ⟨"a1", "s1", true⟩, RegEvent.add ⟨"b1", "s2", true⟩])
    (aligned_applyEvents _ _ _ (aligned_initial _) (by decide)) "s1"
    (OutMessage.app JValue.null) (by decide)
  constructor
  · exact (h.1 "a1").mpr ⟨⟨"a1", "s1", true⟩, by decide, rfl⟩
  · intro hl
    obtain ⟨c, hc, hne⟩ := (h.2 "a1").mp hl
    have : c = ⟨"a1", "s1", true⟩ := by
      have hev : mapGet (ManagerState.connections (applyEvents
          initialManagerState
          [RegEvent.add ⟨"a1", "s1", true⟩,
           RegEvent.add ⟨"b1", "s2", true⟩])) "a1" =
          some ⟨"a1", "s1", true⟩ := by decide
      rw [hev] at hc
      exact (Option.some.inj hc).symm
    rw [this] at hne
    exact hne rfl

/-- C7, counterexample to the claim as stated: component `"widget"` is
registered with a single `server` handler returning `"X"`; its event-name →
handler set (the `events` record the code passes to every component,
`src/lib/monitor.ts:798`) is empty, so no component handler is "selected by
the message's eventName" for `"no-such-event"` and the claim requires
delegation to the route handler (which returns `"Y"`). The dispatcher
instead invokes the component's `server` function regardless of the
eventName and answers `"X"`. -/
theorem C7_counterexample :
    (handleMessage initialManagerState
        [("widget", ⟨some (fun _ => Except.ok (JValue.str "X"))⟩)]
        (some (fun _ _ => Except.ok (JValue.str "Y")))
        ⟨"widget", "no-such-event", JValue.null⟩ ⟨"c1", "s1", true⟩ "t0").2 =
      [⟨"c1", OutMessage.eventResult "no-such-event" true
          (some (JValue.str "X")) none "t0", true⟩] ∧
    JValue.str "X" ≠ JValue.str "Y" :=
  ⟨rfl, by intro h; injection h with h2; exact absurd h2 (by decide)⟩

/-- C7 (amended): when the inbound message names a registered component
with a server-side handler (and is not the `"route"`/`"app"` sentinel), the
dispatcher invokes that component's single `server` handler on the message
payload — the message's eventName plays no role in the selection and the
injected route message handler is not consulted (the outcome does not
mention either); exactly when no such component handler resolves, the
dispatcher delegates to the single injected route message handler, passing
it the sanitized message. -/
theorem C7_resolution_order (components : List (String × ComponentDefinition))
    (routeHandler : Option RouteMessageHandler)
    (message : ServerEventMessage) (connection : Conn) :
    (∀ h, componentResolves components message = some h →
        dispatchOutcome components routeHandler message connection =
          (h message.payload).map (fun r => (true, some r))) ∧
    (componentResolves components message = none →
        dispatchOutcome components routeHandler message connection =
          (match routeHandler with
           | some rh =>
             (rh { message with payload := sanitizeInput message.payload }
               connection).map (fun r => (true, some r))
           | none => Except.ok (false, none))) := by
  constructor
  · intro h hres
    simp only [componentResolves] at hres
    split at hres
    case isTrue hcond =>
      cases hg : mapGet components message.component with
      | none => rw [hg] at hres; cases hres
      | some comp =>
        rw [hg] at hres
        have hs : comp.server = some h := hres
        simp only [dispatchOutcome, if_pos hcond, hg, hs]
        cases hp : h message.payload with
        | ok r => simp [hp, Except.map]
        | error e => simp [hp, Except.map]
    case isFalse => cases hres
  · intro hres
    simp only [componentResolves] at hres
    split at hres
    case isTrue hcond =>
      cases hg : mapGet components message.component with
      | none =>
        simp only [dispatchOutcome, if_pos hcond, hg]
      | some comp =>
        rw [hg] at hres
        have hs : comp.server = none := hres
        simp only [dispatchOutcome, if_pos hcond, hg, hs]
    case isFalse hcond =>
      simp only [dispatchOutcome, if_neg hcond]

/-- C9: when a connection's transport fires `open`, the connection is
registered — afterwards it is present in the primary map and its id is in
its session's index set — and the `connection-established` envelope sent
down that same connection carries the connection's `sessionId`,
`connectionId` and the timestamp; the send happens on the
post-registration state (`addConnection` runs before `connection.send` in
`socket.onopen`). -/
theorem C9_open_registers_then_welcomes (st : ManagerState)
    (connection : Conn) (now : String) :
    mapGet (socketOnOpen st connection now).1.connections connection.id =
      some connection ∧
    (∃ s, mapGet (socketOnOpen st connection now).1.sessionConnections
        connection.sessionId = some s ∧ connection.id ∈ s) ∧
    (socketOnOpen st connection now).2 =
      [⟨connection.id, OutMessage.connectionEstablished connection.sessionId
          connection.id now, connection.isOpen⟩] := by
  refine ⟨?_, ?_, ?_⟩
  · show mapGet (doSend (addConnection st connection) connection _).1.connections
        connection.id = some connection
    rw [doSend_connections, addConnection_connections, mapGet_mapSet_self]
  · show ∃ s, mapGet (doSend (addConnection st connection) connection
        _).1.sessionConnections connection.sessionId = some s ∧
        connection.id ∈ s
    rw [doSend_sessionConnections]
    cases hm : mapGet st.sessionConnections connection.sessionId with
    | none =>
      rw [addConnection_sess_absent st connection hm, mapGet_mapSet_self]
      exact ⟨[connection.id], rfl, by simp⟩
    | some s =>
      rw [addConnection_sess_present st connection s hm, mapGet_mapSet_self]
      exact ⟨setAdd s connection.id, rfl,
        (mem_setAdd _ _ _).mpr (Or.inr rfl)⟩
  · show (socketOnOpen st connection now).2 = _
    simp [socketOnOpen, doSend_rec]

/-- C10 (implicit behavior): `sendToConnection` reports registry
membership, not delivery — it returns `true` exactly when the connectionId
is a key of the primary map, and for a registered connection whose
transport is closed it still returns `true` while the send closure
transmits nothing (no delivered send record). -/
theorem C10_sendToConnection_reports_membership (st : ManagerState)
    (connectionId : String) (m : OutMessage) :
    ((sendToConnection st connectionId m).2.1 =
      (mapGet st.connections connectionId).isSome) ∧
    (∀ c, mapGet st.connections connectionId = some c → c.isOpen = false →
      (sendToConnection st connectionId m).2.1 = true ∧
      (sendToConnection st connectionId m).2.2.filter
        (fun r => r.delivered) = []) := by
  constructor
  · cases hc : mapGet st.connections connectionId with
    | none => simp [sendToConnection, hc]
    | some c => simp [sendToConnection, hc]
  · intro c hc hopen
    refine ⟨by simp [sendToConnection, hc], ?_⟩
    simp [sendToConnection, hc, doSend_rec, hopen]

theorem runOf_mono (p q : Char → Bool) (hpq : ∀ c, p c = true → q c = true) :
    ∀ (n : Nat) (cs rest : List Char),
      runOf p n cs = some rest → runOf q n cs = some rest
  | 0, cs, rest, h => by simpa [runOf] using h
  | n + 1, [], rest, h => by simp [runOf] at h
  | n + 1, c :: cs, rest, h => by
    simp only [runOf] at h ⊢
    split at h
    · rw [if_pos (hpq c (by assumption))]
      exact runOf_mono p q hpq n cs rest h
    · exact absurd h (by simp)

theorem matchToks_mono : ∀ (ts1 ts2 : List UuidTok) (cs : List Char),
    List.Forall₂ TokLE ts1 ts2 → matchToks ts1 cs = true →
      matchToks ts2 cs = true := by
  intro ts1 ts2 cs hrel
  induction hrel generalizing cs with
  | nil =>
    intro h
    cases cs with
    | nil => exact h
    | cons c cs => simp [matchToks] at h
  | cons ht hts ih =>
    rename_i t1 t2 rest1 rest2
    intro h
    cases t1 with
    | run p n =>
      cases t2 with
      | run q m =>
        obtain ⟨hnm, hpq⟩ := ht
        subst hnm
        simp only [matchToks] at h ⊢
        cases hr : runOf p n cs with
        | none => rw [hr] at h; simp at h
        | some rest =>
          rw [hr] at h
          rw [runOf_mono p q hpq n cs rest hr]
          exact ih rest h
      | one q => cases ht
    | one p =>
      cases t2 with
      | run q m => cases ht
      | one q =>
        cases cs with
        | nil => simp [matchToks] at h
        | cons c rest =>
          simp only [matchToks] at h ⊢
          split at h
          · rw [if_pos (ht c (by assumption))]
            exact ih rest h
          · exact absurd h (by simp)

theorem isValidSessionId_of_randomUUID (s : String)
    (h : isRandomUUIDOutput s = true) : isValidSessionId s = true := by
  refine matchToks_mono _ _ s.data ?_ h
  have hhex : ∀ c, isLowerHexDigit c = true → isHexDigitCI c = true := by
    intro c hc
    simp only [isLowerHexDigit, Bool.or_eq_true, Bool.and_eq_true,
      decide_eq_true_eq] at hc
    simp only [isHexDigitCI, Bool.or_eq_true, Bool.and_eq_true,
      decide_eq_true_eq]
    tauto
  refine List.Forall₂.cons ⟨rfl, hhex⟩ ?_
  refine List.Forall₂.cons (fun c hc => hc) ?_
  refine List.Forall₂.cons ⟨rfl, hhex⟩ ?_
  refine List.Forall₂.cons (fun c hc => hc) ?_
  refine List.Forall₂.cons (fun c hc => hc) ?_
  refine List.Forall₂.cons ⟨rfl, hhex⟩ ?_
  refine List.Forall₂.cons (fun c hc => hc) ?_
  refine List.Forall₂.cons ?_ ?_
  · intro c hc
    simp only [Bool.or_eq_true, decide_eq_true_eq] at hc ⊢
    tauto
  refine List.Forall₂.cons ⟨rfl, hhex⟩ ?_
  refine List.Forall₂.cons (fun c hc => hc) ?_
  refine List.Forall₂.cons ⟨rfl, hhex⟩ ?_
  exact List.Forall₂.nil

/-- C8: a token minted by the identity provider on a request with no valid
session cookie (a `crypto.randomUUID()` output) passes the format
validator `isValidSessionId`; the minting request is answered with
`isNewSession = true` and a `Set-Cookie` header; and presenting the token
again on a later request returns it unchanged with `isNewSession = false`
and no new cookie issued. -/
theorem C8_session_token_roundtrip (config : SessionCookieConfig)
    (cookies cookies2 : List (String × String)) (fresh fresh2 : String)
    (hmint : isRandomUUIDOutput fresh = true)
    (hnone : getSessionId config cookies = none)
    (hagain : mapGet cookies2 config.cookieName = some fresh) :
    isValidSessionId fresh = true ∧
    handleSession config cookies fresh =
      (fresh, true, some (createSessionCookie config fresh)) ∧
    handleSession config cookies2 fresh2 = (fresh, false, none) := by
  have hvalid : isValidSessionId fresh = true :=
    isValidSessionId_of_randomUUID fresh hmint
  refine ⟨hvalid, ?_, ?_⟩
  · simp [handleSession, hnone]
  · have hne : fresh ≠ "" := by
      intro he
      rw [he] at hmint
      exact absurd hmint (by decide)
    simp [handleSession, getSessionId, hagain, hne, hvalid]

/-- C8, witness: the round-trip theorem at a concrete freshly-minted
token and the default cookie configuration. -/
theorem C8_session_token_roundtrip_witness :
    isValidSessionId "9f1b2c3d-4e5f-4a6b-8c7d-0123456789ab" = true ∧
    handleSession ⟨"weblisk-session-id", 604800, false, "Lax"⟩ []
        "9f1b2c3d-4e5f-4a6b-8c7d-0123456789ab" =
      ("9f1b2c3d-4e5f-4a6b-8c7d-0123456789ab", true,
        some (createSessionCookie ⟨"weblisk-session-id", 604800, false, "Lax"⟩
          "9f1b2c3d-4e5f-4a6b-8c7d-0123456789ab")) ∧
    handleSession ⟨"weblisk-session-id", 604800, false, "Lax"⟩
        [("weblisk-session-id", "9f1b2c3d-4e5f-4a6b-8c7d-0123456789ab")]
        "ffffffff-ffff-4fff-bfff-ffffffffffff" =
      ("9f1b2c3d-4e5f-4a6b-8c7d-0123456789ab", false, none) :=
  C8_session_token_roundtrip ⟨"weblisk-session-id", 604800, false, "Lax"⟩ []
    [("weblisk-session-id", "9f1b2c3d-4e5f-4a6b-8c7d-0123456789ab")]
    "9f1b2c3d-4e5f-4a6b-8c7d-0123456789ab"
    "ffffffff-ffff-4fff-bfff-ffffffffffff" (by decide) rfl rfl
